import Mathlib

/-!
# A shallow embedding of the Babylon `x/btcstaking` message server

This development embeds the message handlers of
`x/btcstaking/keeper/msg_server.go` as executable Lean functions over an
explicit chain state, and proves the specification's claims about them.

Modelling conventions:

* Bitcoin public keys, signatures, transaction bytes and staking-transaction
  hashes are abstracted as `Nat` (resp. lists of `Nat`): the handlers only
  compare them for equality and store them.
* Machine integers (`uint64`, `uint32`) are modelled as `Nat`; BTC chain
  heights in this module never approach `2^64`, so wraparound is immaterial
  and plain `Nat` arithmetic is used.
* External collaborators are passed as explicit arguments, mirroring the
  narrow query contracts of the spec: the BTC light client tip height, the
  checkpointing module's finalization timeout `w`, the result of
  inclusion-proof verification (`Option Nat`, the verified height), and the
  boolean results of the cryptographic verifier's Schnorr/adaptor checks.
  Which cryptographic verifications a handler actually executed is recorded
  in an explicit trace (`List CryptoOp`).
* Handlers return an `Outcome`: `ok` carries the post-state; `err` carries a
  user-facing error (the host runtime discards every store write when a
  handler errors, so an `err` outcome leaves the chain state unchanged);
  `fault` is a Go `panic`, i.e. an unrecoverable internal-consistency fault
  that aborts the transaction without producing a user-facing error.
* Functions of the `types` package that are only declared, not defined, in
  the sources at hand (`GetStatus`, `HasCovenantQuorums`,
  `IsSignedByCovMember`, `IsUnbondedEarly`, `GetFpIdx`, `HasCovenantPK`,
  `IsSlashed`, and the keeper store mutators) are modelled from the spec;
  each such definition carries a doc comment saying so.
-/

namespace BtcStaking

/-- Derived status of a BTC delegation (spec 4.4): it is computed, never
stored. -/
inductive BTCDelegationStatus where
  | PENDING
  | ACTIVE
  | UNBONDED
deriving DecidableEq, Repr

/-- A height-indexed power-distribution update event (spec 3): a tagged
variant over delegation-state updates, new finality providers and slashed
providers, consumed by an external aggregator. -/
inductive PowerDistUpdateEvent where
  | btcDelStateUpdate (stakingTxHash : Nat) (newState : BTCDelegationStatus)
  | newFinalityProvider (fpBtcPk : Nat)
  | slashedFinalityProvider (fpBtcPk : Nat)
deriving DecidableEq, Repr

/-- A finality provider record (spec 3): identity (BTC key, chain address),
commission, description, slashed flag and slashing height. -/
structure FinalityProvider where
  addr : String
  btcPk : Nat
  commission : Rat
  description : String
  slashed : Bool
  slashedHeight : Nat
deriving DecidableEq, Repr

/-- Modelled from the spec: `FinalityProvider.IsSlashed` of the `types`
package is absent from the sources; spec 3 records a slashed flag on each
provider and slashing is one-way. -/
def FinalityProvider.IsSlashed (fp : FinalityProvider) : Bool :=
  fp.slashed

/-- The undelegation data embedded in every delegation (spec 3):
the unbonding transaction, its slashing template, the staker's signatures and
the covenant signature sets.  Covenant adaptor-signature sets are keyed by
the covenant member's public key. -/
structure BTCUndelegation where
  unbondingTx : List Nat
  slashingTx : List Nat
  delegatorSlashingSig : Nat
  delegatorUnbondingSig : Option Nat
  covenantSlashingSigs : List (Nat × List Nat)
  covenantUnbondingSigList : List (Nat × Nat)
deriving DecidableEq, Repr

/-- A BTC delegation record, field for field after the `types.BTCDelegation`
constructed in `CreateBTCDelegation` (msg_server.go lines 198-222). -/
structure BTCDelegation where
  stakerAddr : String
  btcPk : Nat
  pop : Nat
  fpBtcPkList : List Nat
  stakingTime : Nat
  startHeight : Nat
  endHeight : Nat
  totalSat : Nat
  stakingTx : List Nat
  stakingOutputIdx : Nat
  slashingTx : List Nat
  delegatorSig : Nat
  unbondingTime : Nat
  covenantSigs : List (Nat × List Nat)
  btcUndelegation : BTCUndelegation
  paramsVersion : Nat
deriving DecidableEq, Repr

/-- Modelled from the spec: `BTCDelegation.HasInclusionProof` of the `types`
package is absent from the sources; spec 3 says start/end height are "unset
until inclusion proof verified" and "both zero until inclusion is proven". -/
def BTCDelegation.HasInclusionProof (d : BTCDelegation) : Bool :=
  !(d.startHeight == 0 && d.endHeight == 0)

/-- Modelled from the spec: `BTCDelegation.IsSignedByCovMember` of the
`types` package is absent from the sources; the staking-slashing covenant
signature sets are keyed by covenant public key (spec 3). -/
def BTCDelegation.IsSignedByCovMember (d : BTCDelegation) (pk : Nat) : Bool :=
  d.covenantSigs.any (fun s => s.1 == pk)

/-- Modelled from the spec: `BTCUndelegation.IsSignedByCovMember` of the
`types` package is absent from the sources; the unbonding-slashing covenant
signature sets are keyed by covenant public key (spec 3). -/
def BTCUndelegation.IsSignedByCovMember (u : BTCUndelegation) (pk : Nat) : Bool :=
  u.covenantSlashingSigs.any (fun s => s.1 == pk)

/-- Modelled from the spec: `BTCDelegation.HasCovenantQuorums` of the
`types` package is absent from the sources; the quorum is reached once at
least `quorum` covenant members have signatures recorded for the
staking-slashing, unbonding-slashing and unbonding paths (spec 3, 4.4). -/
def BTCDelegation.HasCovenantQuorums (d : BTCDelegation) (quorum : Nat) : Bool :=
  quorum ≤ d.covenantSigs.length &&
  quorum ≤ d.btcUndelegation.covenantSlashingSigs.length &&
  quorum ≤ d.btcUndelegation.covenantUnbondingSigList.length

/-- Modelled from the spec: `BTCDelegation.IsUnbondedEarly` of the `types`
package is absent from the sources; the staker's unbonding signature is
"present only once voluntary unbonding occurs" (spec 3, 4.4). -/
def BTCDelegation.IsUnbondedEarly (d : BTCDelegation) : Bool :=
  d.btcUndelegation.delegatorUnbondingSig.isSome

/-- Modelled from the spec: `BTCDelegation.GetStatus` of the `types` package
is absent from the sources; spec 4.4 derives the status as a pure function of
tip height, finalization timeout `w`, covenant quorum and the recorded
heights/signatures, with the early-unbonding signature taking precedence. -/
def BTCDelegation.GetStatus (d : BTCDelegation) (btcHeight w covenantQuorum : Nat) :
    BTCDelegationStatus :=
  if d.btcUndelegation.delegatorUnbondingSig.isSome then .UNBONDED
  else if !d.HasInclusionProof then .PENDING
  else if !d.HasCovenantQuorums covenantQuorum then .PENDING
  else if d.endHeight - w ≤ btcHeight then .UNBONDED
  else .ACTIVE

/-- Modelled from the spec: `BTCDelegation.GetFpIdx` of the `types` package
is absent from the sources; it returns the index of the given key in the
delegation's finality-provider list, `-1` when absent (spec 4.5 "confirms
that key is among the delegation's provider list"). -/
def fpIdxIn : List Nat → Nat → Int
  | [], _ => -1
  | x :: rest, pk =>
    if x = pk then 0
    else
      let r := fpIdxIn rest pk
      if r = -1 then -1 else r + 1

/-- See `fpIdxIn`. -/
def BTCDelegation.GetFpIdx (d : BTCDelegation) (pk : Nat) : Int :=
  fpIdxIn d.fpBtcPkList pk

/-- The protocol parameters a delegation is validated against (spec 6). -/
structure Params where
  covenantPks : List Nat
  covenantQuorum : Nat
  minCommissionRate : Rat
deriving DecidableEq, Repr

/-- Modelled from the spec: `Params.HasCovenantPK` of the `types` package is
absent from the sources; membership of the given key in the parameter set's
covenant key list (spec 6). -/
def Params.HasCovenantPK (p : Params) (pk : Nat) : Bool :=
  p.covenantPks.contains pk

/-- Association-list lookup by `Nat` key, the embedding of the keeper's
key-value store reads. -/
def lookupA {α : Type} : List (Nat × α) → Nat → Option α
  | [], _ => none
  | (k, v) :: rest, key => if k = key then some v else lookupA rest key

/-- Association-list write by `Nat` key, the embedding of the keeper's
key-value store writes: replaces the binding in place, inserts when absent. -/
def setA {α : Type} : List (Nat × α) → Nat → α → List (Nat × α)
  | [], k, v => [(k, v)]
  | (k', v') :: rest, k, v =>
    if k' = k then (k, v) :: rest else (k', v') :: setA rest k v

/-- The chain state owned by this module: the delegation store keyed by
staking-transaction hash, the finality-provider registry keyed by BTC key,
the parameter history indexed by version, and the append-only
power-distribution event log. -/
structure ChainState where
  delegations : List (Nat × BTCDelegation)
  finalityProviders : List (Nat × FinalityProvider)
  paramsList : List Params
  powerDistEvents : List (Nat × PowerDistUpdateEvent)
deriving DecidableEq, Repr

/-- The error-kind taxonomy of spec 7. -/
inductive ErrKind where
  | validationErr
  | notFoundErr
  | duplicateErr
  | signatureErr
  | stateConflictErr
deriving DecidableEq, Repr

/-- The user-facing errors returned by the handlers, one constructor per
registered error (or per `fmt.Errorf` site) of msg_server.go.  Errors that
the Go code wraps with distinguishing messages carry that message. -/
inductive HandlerError where
  | reusedStakingTx
  | invalidProofOfPossession
  | fpNotFound
  | fpAlreadySlashed
  | paramsValidationFailed
  | invalidInclusionProof
  | btcDelegationNotFound (msg : String)
  | alreadyHasInclusionProof
  | noCovenantQuorum
  | delegationAlreadyUnbonded
  | invalidCovenantPK
  | duplicatedCovenantSig
  | covenantSigCountMismatch (got expected : Nat)
  | invalidCovenantSig (msg : String)
  | invalidBTCUndelegateReq (msg : String)
  | commissionLTMinRate
  | commissionGTMaxRate
  | signerMismatch
deriving DecidableEq, Repr

/-- Classification of each handler error into the spec-7 error kinds. -/
def HandlerError.kind : HandlerError → ErrKind
  | .reusedStakingTx => .duplicateErr
  | .invalidProofOfPossession => .signatureErr
  | .fpNotFound => .notFoundErr
  | .fpAlreadySlashed => .stateConflictErr
  | .paramsValidationFailed => .validationErr
  | .invalidInclusionProof => .validationErr
  | .btcDelegationNotFound _ => .notFoundErr
  | .alreadyHasInclusionProof => .duplicateErr
  | .noCovenantQuorum => .stateConflictErr
  | .delegationAlreadyUnbonded => .stateConflictErr
  | .invalidCovenantPK => .validationErr
  | .duplicatedCovenantSig => .duplicateErr
  | .covenantSigCountMismatch _ _ => .validationErr
  | .invalidCovenantSig _ => .signatureErr
  | .invalidBTCUndelegateReq _ => .stateConflictErr
  | .commissionLTMinRate => .validationErr
  | .commissionGTMaxRate => .validationErr
  | .signerMismatch => .validationErr

/-- Result of a handler: success with the post-state, a user-facing error
(with every store write discarded by the host runtime), or a `panic`
(an unrecoverable internal-consistency fault, spec 7). -/
inductive Outcome (α : Type) where
  | ok (a : α)
  | err (e : HandlerError)
  | fault (msg : String)
deriving DecidableEq, Repr

/-- The cryptographic verifications `AddCovenantSigs` can execute, in the
order the Go handler runs them; a handler's trace records those actually
performed before it returned. -/
inductive CryptoOp where
  | adaptorOverStakingSlashing
  | schnorrOverUnbonding
  | adaptorOverUnbondingSlashing
deriving DecidableEq, Repr

/-- `GetParamsByVersion`: the parameter snapshot of a given version, `none`
when the version does not exist. -/
def getParamsByVersion (st : ChainState) (v : Nat) : Option Params :=
  st.paramsList.get? v

/-- `getBTCDelWithParams` (msg_server.go lines 316-330): fetches a delegation
by staking-transaction hash together with the parameter-version snapshot the
delegation is bound to; a missing delegation is a user error, a missing
parameter version is a panic. -/
def getBTCDelWithParams (st : ChainState) (stakingTxHash : Nat) :
    Outcome (BTCDelegation × Params) :=
  match lookupA st.delegations stakingTxHash with
  | none => .err (.btcDelegationNotFound "")
  | some d =>
    match getParamsByVersion st d.paramsVersion with
    | none => .fault "params version in BTC delegation is not found"
    | some p => .ok (d, p)

/-- `EditFinalityProvider` (msg_server.go lines 81-121).  `minCommissionRate`
is the module's `MinCommissionRate` parameter, passed explicitly.  Bech32
parsing of the signer address normalizes case, so the `strings.EqualFold`
comparison of the Go code is equality of parsed addresses here. -/
structure MsgEditFinalityProvider where
  addr : String
  btcPk : Nat
  description : String
  commission : Rat
deriving DecidableEq, Repr

/-- See `MsgEditFinalityProvider`. -/
def EditFinalityProvider (st : ChainState) (req : MsgEditFinalityProvider)
    (minCommissionRate : Rat) : Outcome ChainState :=
  if req.commission < minCommissionRate then
    .err .commissionLTMinRate
  else if 1 < req.commission then
    .err .commissionGTMaxRate
  else
    match lookupA st.finalityProviders req.btcPk with
    | none => .err .fpNotFound
    | some fp =>
      if req.addr ≠ fp.addr then
        .err .signerMismatch
      else
        let fp' := { fp with description := req.description,
                             commission := req.commission }
        .ok { st with
          finalityProviders := setA st.finalityProviders req.btcPk fp' }

/-- The parsed form of a `MsgCreateBTCDelegation`
(`types.ParseCreateDelegationMessage` output); the staking-transaction hash
stands for `parsedMsg.StakingTx.Transaction.TxHash()`.  `hasInclusionProof`
records whether `StakingTxProofOfInclusion` was supplied inline. -/
structure ParsedCreateDelegation where
  stakerAddr : String
  stakerBtcPk : Nat
  pop : Nat
  fpKeys : List Nat
  stakingTime : Nat
  stakingValue : Nat
  stakingTxHash : Nat
  stakingTx : List Nat
  stakingSlashingTx : List Nat
  stakerStakingSlashingSig : Nat
  unbondingTime : Nat
  unbondingTx : List Nat
  unbondingSlashingTx : List Nat
  stakerUnbondingSlashingSig : Nat
  hasInclusionProof : Bool
deriving DecidableEq, Repr

/-- Step 4 of `CreateBTCDelegation` (msg_server.go lines 151-161): every
named finality provider must be known and not slashed; the first failure is
returned. -/
def checkFinalityProviders (st : ChainState) : List Nat → Option HandlerError
  | [] => none
  | pk :: rest =>
    match lookupA st.finalityProviders pk with
    | none => some .fpNotFound
    | some fp =>
      if fp.IsSlashed then some .fpAlreadySlashed
      else checkFinalityProviders st rest

/-- The `types.BTCDelegation` record constructed by `CreateBTCDelegation`
(msg_server.go lines 198-222): covenant signature sets start empty, the
staker's unbonding signature is absent, and the delegation is bound to the
parameter version it was validated against. -/
def newBTCDelOf (msg : ParsedCreateDelegation)
    (stakingOutputIdx startHeight endHeight paramsVersion : Nat) :
    BTCDelegation := {
  stakerAddr := msg.stakerAddr,
  btcPk := msg.stakerBtcPk,
  pop := msg.pop,
  fpBtcPkList := msg.fpKeys,
  stakingTime := msg.stakingTime,
  startHeight := startHeight,
  endHeight := endHeight,
  totalSat := msg.stakingValue,
  stakingTx := msg.stakingTx,
  stakingOutputIdx := stakingOutputIdx,
  slashingTx := msg.stakingSlashingTx,
  delegatorSig := msg.stakerStakingSlashingSig,
  unbondingTime := msg.unbondingTime,
  covenantSigs := [],
  btcUndelegation := {
    unbondingTx := msg.unbondingTx,
    slashingTx := msg.unbondingSlashingTx,
    delegatorSlashingSig := msg.stakerUnbondingSlashingSig,
    delegatorUnbondingSig := none,
    covenantSlashingSigs := [],
    covenantUnbondingSigList := [] },
  paramsVersion := paramsVersion }

/-- `CreateBTCDelegation` (msg_server.go lines 124-230).  The proof of
possession check (an external cryptographic verification) is passed as
`popOk`; `paramsValidationIdx` is the result of
`ValidateParsedMessageAgainstTheParams` (the validated staking output index
on success); `inclusionResult` is the verified inclusion height returned by
`VerifyInclusionProofAndGetHeight`, consulted only when the message carries
an inline proof.  Gas consumption and telemetry are out of scope. -/
def CreateBTCDelegation (st : ChainState) (msg : ParsedCreateDelegation)
    (popOk : Bool) (paramsValidationIdx : Option Nat)
    (inclusionResult : Option Nat) : Outcome ChainState :=
  if !popOk then .err .invalidProofOfPossession
  else
    match lookupA st.delegations msg.stakingTxHash with
    | some _ => .err .reusedStakingTx
    | none =>
      match checkFinalityProviders st msg.fpKeys with
      | some e => .err e
      | none =>
        match paramsValidationIdx with
        | none => .err .paramsValidationFailed
        | some stakingOutputIdx =>
          let heights : Outcome (Nat × Nat) :=
            if msg.hasInclusionProof then
              match inclusionResult with
              | none => .err .invalidInclusionProof
              | some h => .ok (h, h + msg.stakingTime)
            else .ok (0, 0)
          match heights with
          | .err e => .err e
          | .fault m => .fault m
          | .ok (startHeight, endHeight) =>
            let newBTCDel := newBTCDelOf msg stakingOutputIdx
              startHeight endHeight (st.paramsList.length - 1)
            .ok { st with
              delegations := setA st.delegations msg.stakingTxHash newBTCDel }

/-- `AddBTCDelegationInclusionProof` (msg_server.go lines 233-314).
`inclusionResult` is the verified inclusion height returned by
`VerifyInclusionProofAndGetHeight` (`none` on verification failure),
`btcTipHeight` the BTC light client's tip, `wValue` the checkpointing
module's finalization timeout. -/
def AddBTCDelegationInclusionProof (st : ChainState) (stakingTxHash : Nat)
    (inclusionResult : Option Nat) (btcTipHeight wValue : Nat) :
    Outcome ChainState :=
  match getBTCDelWithParams st stakingTxHash with
  | .err e => .err e
  | .fault m => .fault m
  | .ok (btcDel, params) =>
    if btcDel.HasInclusionProof then .err .alreadyHasInclusionProof
    else if !btcDel.HasCovenantQuorums params.covenantQuorum then
      .err .noCovenantQuorum
    else if btcDel.btcUndelegation.delegatorUnbondingSig.isSome then
      .err .delegationAlreadyUnbonded
    else
      match inclusionResult with
      | none => .err .invalidInclusionProof
      | some inclusionHeight =>
        let btcDel' := { btcDel with
          startHeight := inclusionHeight,
          endHeight := inclusionHeight + btcDel.stakingTime }
        let st1 := { st with
          delegations := setA st.delegations stakingTxHash btcDel' }
        let activeEvent := (btcTipHeight,
          PowerDistUpdateEvent.btcDelStateUpdate stakingTxHash .ACTIVE)
        let st2 := { st1 with
          powerDistEvents := st1.powerDistEvents ++ [activeEvent] }
        let unbondedEvent := (btcDel'.endHeight - wValue,
          PowerDistUpdateEvent.btcDelStateUpdate stakingTxHash .UNBONDED)
        let st3 := { st2 with
          powerDistEvents := st2.powerDistEvents ++ [unbondedEvent] }
        .ok st3

/-- A `MsgAddCovenantSigs` after `ValidateBasic` (covenant public key,
per-finality-provider adaptor signatures over the staking-slashing and
unbonding-slashing transactions, and a Schnorr signature over the unbonding
transaction). -/
structure MsgAddCovenantSigs where
  stakingTxHash : Nat
  pk : Nat
  slashingTxSigs : List Nat
  unbondingTxSig : Nat
  slashingUnbondingTxSigs : List Nat
deriving DecidableEq, Repr

/-- Modelled from the spec: the keeper's `addCovenantSigsToBTCDelegation` is
absent from the sources; on success the handler "records all three signature
sets keyed by this covenant member" (spec 4.4 transition 3). -/
def addCovenantSigsToBTCDelegation (st : ChainState) (stakingTxHash : Nat)
    (d : BTCDelegation) (pk : Nat) (slashingSigs : List Nat)
    (unbondingSig : Nat) (unbondingSlashingSigs : List Nat) : ChainState :=
  let d' := { d with
    covenantSigs := d.covenantSigs ++ [(pk, slashingSigs)],
    btcUndelegation := { d.btcUndelegation with
      covenantSlashingSigs :=
        d.btcUndelegation.covenantSlashingSigs ++ [(pk, unbondingSlashingSigs)],
      covenantUnbondingSigList :=
        d.btcUndelegation.covenantUnbondingSigList ++ [(pk, unbondingSig)] } }
  { st with delegations := setA st.delegations stakingTxHash d' }

/-- `AddCovenantSigs` (msg_server.go lines 334-479).  The three cryptographic
verifications are external calls whose boolean results are passed in
(`stakingAdaptorOk` for `ParseEncVerifyAdaptorSignatures` over the
staking-slashing transaction, `unbondingSchnorrOk` for
`VerifyTransactionSigWithOutput` over the unbonding transaction,
`unbondingAdaptorOk` for `ParseEncVerifyAdaptorSignatures` over the
unbonding-slashing transaction); the returned trace lists the verifications
the handler executed, in order, before returning. -/
def AddCovenantSigs (st : ChainState) (req : MsgAddCovenantSigs)
    (btcTipHeight wValue : Nat)
    (stakingAdaptorOk unbondingSchnorrOk unbondingAdaptorOk : Bool) :
    Outcome ChainState × List CryptoOp :=
  match getBTCDelWithParams st req.stakingTxHash with
  | .err e => (.err e, [])
  | .fault m => (.fault m, [])
  | .ok (btcDel, params) =>
    if !params.HasCovenantPK req.pk then
      (.err .invalidCovenantPK, [])
    else if btcDel.IsSignedByCovMember req.pk &&
        btcDel.btcUndelegation.IsSignedByCovMember req.pk then
      (.err .duplicatedCovenantSig, [])
    else if btcDel.GetStatus btcTipHeight wValue params.covenantQuorum ==
        .UNBONDED then
      (.err (.invalidCovenantSig "the BTC delegation is already unbonded"), [])
    else if req.slashingTxSigs.length ≠ btcDel.fpBtcPkList.length then
      (.err (.covenantSigCountMismatch req.slashingTxSigs.length
        btcDel.fpBtcPkList.length), [])
    else if !stakingAdaptorOk then
      (.err (.invalidCovenantSig "invalid adaptor signature over slashing tx"),
       [.adaptorOverStakingSlashing])
    else if req.slashingUnbondingTxSigs.length ≠ btcDel.fpBtcPkList.length then
      (.err (.covenantSigCountMismatch req.slashingUnbondingTxSigs.length
        btcDel.fpBtcPkList.length),
       [.adaptorOverStakingSlashing])
    else if !unbondingSchnorrOk then
      (.err (.invalidCovenantSig "invalid covenant signature over unbonding tx"),
       [.adaptorOverStakingSlashing, .schnorrOverUnbonding])
    else if !unbondingAdaptorOk then
      (.err (.invalidCovenantSig
         "invalid adaptor signature over unbonding slashing tx"),
       [.adaptorOverStakingSlashing, .schnorrOverUnbonding,
        .adaptorOverUnbondingSlashing])
    else
      (.ok (addCovenantSigsToBTCDelegation st req.stakingTxHash btcDel req.pk
         req.slashingTxSigs req.unbondingTxSig req.slashingUnbondingTxSigs),
       [.adaptorOverStakingSlashing, .schnorrOverUnbonding,
        .adaptorOverUnbondingSlashing])

/-- A `MsgBTCUndelegate` after `ValidateBasic`: the staker's Schnorr
signature over the unbonding transaction. -/
structure MsgBTCUndelegate where
  stakingTxHash : Nat
  unbondingTxSig : Nat
deriving DecidableEq, Repr

/-- Modelled from the spec: the keeper's `btcUndelegate` is absent from the
sources; it "records the signature" on the delegation's undelegation
(spec 4.4 transition 4). -/
def btcUndelegate (st : ChainState) (stakingTxHash : Nat) (d : BTCDelegation)
    (sig : Nat) : ChainState :=
  let d' := { d with btcUndelegation :=
    { d.btcUndelegation with delegatorUnbondingSig := some sig } }
  { st with delegations := setA st.delegations stakingTxHash d' }

/-- `BTCUndelegate` (msg_server.go lines 484-547).  `stakerSigOk` is the
result of the external `VerifyTransactionSigWithOutput` check of the
staker's signature over the unbonding transaction. -/
def BTCUndelegate (st : ChainState) (req : MsgBTCUndelegate)
    (btcTipHeight wValue : Nat) (stakerSigOk : Bool) : Outcome ChainState :=
  match getBTCDelWithParams st req.stakingTxHash with
  | .err e => .err e
  | .fault m => .fault m
  | .ok (btcDel, bsParams) =>
    let delStatus := btcDel.GetStatus btcTipHeight wValue bsParams.covenantQuorum
    if delStatus == .PENDING then
      .err (.invalidBTCUndelegateReq "cannot unbond an pending BTC delegation")
    else if delStatus == .UNBONDED then
      .err (.invalidBTCUndelegateReq "cannot unbond an unbonded BTC delegation")
    else if !stakerSigOk then
      .err (.invalidCovenantSig "invalid staker signature over unbonding tx")
    else
      .ok (btcUndelegate st req.stakingTxHash btcDel req.unbondingTxSig)

/-- A `MsgSelectiveSlashingEvidence`: the recovered finality-provider secret
key. -/
structure MsgSelectiveSlashingEvidence where
  stakingTxHash : Nat
  recoveredFpBtcSk : Nat
deriving DecidableEq, Repr

/-- Modelled from the spec: the keeper's `SlashFinalityProvider` is absent
from the sources; slashing "marks that provider slashed (one-way)"
(spec 4.4 transition 5); the slashing height is the current BTC tip. -/
def slashFinalityProvider (st : ChainState) (fpBTCPK : Nat)
    (btcTipHeight : Nat) : ChainState :=
  match lookupA st.finalityProviders fpBTCPK with
  | none => st
  | some fp =>
    let fp' := { fp with slashed := true, slashedHeight := btcTipHeight }
    { st with finalityProviders := setA st.finalityProviders fpBTCPK fp' }

/-- `SelectiveSlashingEvidence` (msg_server.go lines 551-615).  `fpBTCPK` is
the public key derived (by the external `btcec` library) from the recovered
secret key carried by the request. -/
def SelectiveSlashingEvidence (st : ChainState)
    (req : MsgSelectiveSlashingEvidence) (fpBTCPK : Nat)
    (btcTipHeight wValue : Nat) : Outcome ChainState :=
  match getBTCDelWithParams st req.stakingTxHash with
  | .err e => .err e
  | .fault m => .fault m
  | .ok (btcDel, bsParams) =>
    if !(btcDel.GetStatus btcTipHeight wValue bsParams.covenantQuorum ==
          .ACTIVE) && !btcDel.IsUnbondedEarly then
      .err (.btcDelegationNotFound
        "a BTC delegation that is not active or unbonding early cannot be slashed")
    else if btcDel.GetFpIdx fpBTCPK == -1 then
      .err .fpNotFound
    else
      match lookupA st.finalityProviders fpBTCPK with
      | none => .fault "failing to find the finality provider with BTC delegations"
      | some fp =>
        if fp.IsSlashed then .err .fpAlreadySlashed
        else .ok (slashFinalityProvider st fpBTCPK btcTipHeight)

/-! ## Store lemmas -/

theorem lookupA_setA_self {α : Type} (m : List (Nat × α)) (k : Nat) (v : α) :
    lookupA (setA m k v) k = some v := by
  induction m with
  | nil => simp [setA, lookupA]
  | cons hd tl ih =>
    obtain ⟨k', v'⟩ := hd
    by_cases hk : k' = k
    · simp [setA, hk, lookupA]
    · simp [setA, hk, lookupA, ih]

theorem lookupA_setA_ne {α : Type} (m : List (Nat × α)) (k k' : Nat) (v : α)
    (h : k' ≠ k) : lookupA (setA m k v) k' = lookupA m k' := by
  have hne : ¬k = k' := fun hh => h hh.symm
  induction m with
  | nil => simp [setA, lookupA, hne]
  | cons hd tl ih =>
    obtain ⟨k₀, v₀⟩ := hd
    by_cases hk : k₀ = k
    · subst hk
      simp [setA, lookupA, hne]
    · simp only [setA, if_neg hk, lookupA]
      by_cases hk' : k₀ = k'
      · simp [hk']
      · simp [hk', ih]

theorem lookupA_setA_cases {α : Type} (m : List (Nat × α)) (k h : Nat)
    (v d : α) (hl : lookupA (setA m k v) h = some d) :
    (h = k ∧ d = v) ∨ lookupA m h = some d := by
  by_cases hk : h = k
  · subst hk
    rw [lookupA_setA_self] at hl
    exact Or.inl ⟨rfl, (Option.some_inj.mp hl).symm⟩
  · rw [lookupA_setA_ne m k h v hk] at hl
    exact Or.inr hl

theorem fpIdxIn_neg_one_or_nonneg (xs : List Nat) (pk : Nat) :
    fpIdxIn xs pk = -1 ∨ 0 ≤ fpIdxIn xs pk := by
  induction xs with
  | nil => simp [fpIdxIn]
  | cons x rest ih =>
    by_cases hx : x = pk
    · simp [fpIdxIn, hx]
    · rcases ih with h1 | h1
      · simp [fpIdxIn, hx, h1]
      · by_cases h2 : fpIdxIn rest pk = -1
        · simp [fpIdxIn, hx, h2]
        · simp only [fpIdxIn, if_neg hx, if_neg h2]
          omega

theorem fpIdxIn_eq_neg_one_iff (xs : List Nat) (pk : Nat) :
    fpIdxIn xs pk = -1 ↔ pk ∉ xs := by
  induction xs with
  | nil => simp [fpIdxIn]
  | cons x rest ih =>
    by_cases hx : x = pk
    · subst hx
      simp [fpIdxIn]
    · by_cases h2 : fpIdxIn rest pk = -1
      · simp only [fpIdxIn, if_neg hx, if_pos h2, List.mem_cons, not_or]
        constructor
        · intro _
          exact ⟨fun hh => hx hh.symm, ih.mp h2⟩
        · intro _
          trivial
      · have hmem : pk ∈ rest := by
          by_contra hc
          exact h2 (ih.mpr hc)
        simp only [fpIdxIn, if_neg hx, if_neg h2, List.mem_cons, not_or]
        have h1 : 0 ≤ fpIdxIn rest pk := by
          rcases fpIdxIn_neg_one_or_nonneg rest pk with hh | hh
          · exact absurd hh h2
          · exact hh
        constructor
        · intro hc
          omega
        · intro hc
          exact absurd hmem hc.2

/-! ## Inversion lemmas for the handlers -/

theorem getBTCDelWithParams_ok_iff (st : ChainState) (h : Nat)
    (d : BTCDelegation) (p : Params) :
    getBTCDelWithParams st h = .ok (d, p) ↔
      lookupA st.delegations h = some d ∧
      getParamsByVersion st d.paramsVersion = some p := by
  unfold getBTCDelWithParams
  constructor
  · intro hok
    split at hok
    · cases hok
    · next d' hd' =>
      split at hok
      · cases hok
      · next p' hp' =>
        obtain ⟨rfl, rfl⟩ : d' = d ∧ p' = p := by
          cases hok
          exact ⟨rfl, rfl⟩
        exact ⟨hd', hp'⟩
  · rintro ⟨hd, hp⟩
    rw [hd]
    simp [hp]

theorem addInclusionProof_ok_inv (st : ChainState) (hash : Nat)
    (incl : Option Nat) (tip w : Nat) (st₁ : ChainState)
    (hok : AddBTCDelegationInclusionProof st hash incl tip w = .ok st₁) :
    ∃ d p h, lookupA st.delegations hash = some d ∧
      getParamsByVersion st d.paramsVersion = some p ∧
      d.HasInclusionProof = false ∧
      d.HasCovenantQuorums p.covenantQuorum = true ∧
      d.btcUndelegation.delegatorUnbondingSig = none ∧
      incl = some h ∧
      st₁ = { st with
        delegations := setA st.delegations hash
          { d with startHeight := h, endHeight := h + d.stakingTime },
        powerDistEvents := st.powerDistEvents ++
          [(tip, .btcDelStateUpdate hash .ACTIVE),
           (h + d.stakingTime - w, .btcDelStateUpdate hash .UNBONDED)] } := by
  unfold AddBTCDelegationInclusionProof at hok
  cases hgd : getBTCDelWithParams st hash with
  | err e => rw [hgd] at hok; cases hok
  | fault m => rw [hgd] at hok; cases hok
  | ok dp =>
    obtain ⟨d, p⟩ := dp
    rw [hgd] at hok
    rw [getBTCDelWithParams_ok_iff] at hgd
    obtain ⟨hd, hp⟩ := hgd
    by_cases h1 : d.HasInclusionProof = true
    · simp [h1] at hok
    · by_cases h2 : d.HasCovenantQuorums p.covenantQuorum = true
      · by_cases h3 : d.btcUndelegation.delegatorUnbondingSig.isSome = true
        · simp [h1, h2, h3] at hok
        · cases hincl : incl with
          | none => simp [h1, h2, h3, hincl] at hok
          | some hh =>
            simp only [h1, h2, h3, hincl, Bool.false_eq_true, if_false,
              Bool.not_true, Bool.not_false, if_true, Bool.true_eq_false,
              Outcome.ok.injEq] at hok
            refine ⟨d, p, hh, hd, hp, by simpa using h1, h2,
              Option.not_isSome_iff_eq_none.mp h3, rfl, ?_⟩
            rw [← hok]
            simp [List.append_assoc]
      · simp [h1, h2] at hok

theorem create_ok_inv (st : ChainState) (msg : ParsedCreateDelegation)
    (popOk : Bool) (pv incl : Option Nat) (st₁ : ChainState)
    (hok : CreateBTCDelegation st msg popOk pv incl = .ok st₁) :
    ∃ idx sH eH,
      lookupA st.delegations msg.stakingTxHash = none ∧
      st₁ = { st with
        delegations := setA st.delegations msg.stakingTxHash
          (newBTCDelOf msg idx sH eH (st.paramsList.length - 1)) } ∧
      ((msg.hasInclusionProof = true ∧ incl = some sH ∧
          eH = sH + msg.stakingTime) ∨
       (msg.hasInclusionProof = false ∧ sH = 0 ∧ eH = 0)) := by
  unfold CreateBTCDelegation at hok
  cases popOk with
  | false => simp at hok
  | true =>
    simp only [Bool.not_true, Bool.false_eq_true, if_false] at hok
    cases hlk : lookupA st.delegations msg.stakingTxHash with
    | some d => rw [hlk] at hok; cases hok
    | none =>
      rw [hlk] at hok
      cases hcf : checkFinalityProviders st msg.fpKeys with
      | some e => rw [hcf] at hok; cases hok
      | none =>
        rw [hcf] at hok
        cases pv with
        | none => cases hok
        | some idx =>
          by_cases hpi : msg.hasInclusionProof = true
          · cases hincl : incl with
            | none => simp [hpi, hincl] at hok
            | some hh =>
              simp only [hpi, hincl, if_true, Outcome.ok.injEq] at hok
              exact ⟨idx, hh, hh + msg.stakingTime, rfl, hok.symm,
                Or.inl ⟨hpi, rfl, rfl⟩⟩
          · simp only [hpi, Bool.false_eq_true, if_false,
              Outcome.ok.injEq] at hok
            refine ⟨idx, 0, 0, rfl, hok.symm, Or.inr ⟨?_, rfl, rfl⟩⟩
            simpa using hpi

/-! ## Concrete fixtures used by witnesses and counterexamples -/

/-- An undelegation with covenant member `10` having signed both slashing
paths and the unbonding path, and no staker unbonding signature. -/
def undel0 : BTCUndelegation := {
  unbondingTx := [1],
  slashingTx := [2],
  delegatorSlashingSig := 5,
  delegatorUnbondingSig := none,
  covenantSlashingSigs := [(10, [88])],
  covenantUnbondingSigList := [(10, 99)] }

/-- A delegation with no inclusion proof yet (heights zero), one finality
provider `20`, staking time `50`, and covenant member `10` fully signed. -/
def del0 : BTCDelegation := {
  stakerAddr := "bbn1staker",
  btcPk := 7,
  pop := 3,
  fpBtcPkList := [20],
  stakingTime := 50,
  startHeight := 0,
  endHeight := 0,
  totalSat := 1000,
  stakingTx := [9],
  stakingOutputIdx := 0,
  slashingTx := [8],
  delegatorSig := 4,
  unbondingTime := 10,
  covenantSigs := [(10, [77])],
  btcUndelegation := undel0,
  paramsVersion := 0 }

/-- Parameter version `0`: covenant members `10` and `11`, quorum `1`. -/
def params0 : Params := {
  covenantPks := [10, 11],
  covenantQuorum := 1,
  minCommissionRate := 0 }

/-- A registered, unslashed finality provider with BTC key `20`. -/
def fp20 : FinalityProvider := {
  addr := "bbn1fptwenty",
  btcPk := 20,
  commission := 0,
  description := "a finality provider",
  slashed := false,
  slashedHeight := 0 }

/-- A chain state with `del0` stored under staking-transaction hash `1`. -/
def st0 : ChainState := {
  delegations := [(1, del0)],
  finalityProviders := [(20, fp20)],
  paramsList := [params0],
  powerDistEvents := [] }

/-- The state produced by adding the inclusion proof of `del0` at verified
height `100` while the BTC tip is `105` and `w = 3`. -/
def c2After : ChainState :=
  match AddBTCDelegationInclusionProof st0 1 (some 100) 105 3 with
  | .ok s => s
  | _ => st0

/-! ## The delegation-heights invariant (C1) -/

/-- The heights invariant of spec 3: whenever `StartHeight` is non-zero,
`EndHeight = StartHeight + StakingTime`. -/
def heightsOk (d : BTCDelegation) : Prop :=
  d.startHeight ≠ 0 → d.endHeight = d.startHeight + d.stakingTime

instance (d : BTCDelegation) : Decidable (heightsOk d) := by
  unfold heightsOk
  infer_instance

/-- The heights invariant holds for every stored delegation. -/
def allHeightsOk (st : ChainState) : Prop :=
  ∀ h d, lookupA st.delegations h = some d → heightsOk d

/-- C1: for every delegation, whenever `StartHeight` is non-zero,
`EndHeight = StartHeight + StakingTime`, and both heights are zero until an
inclusion proof is verified: `CreateBTCDelegation` preserves the invariant
for every stored delegation (first conjunct), a creation without an inline
inclusion proof stores the new delegation with both heights zero (second
conjunct), and `AddBTCDelegationInclusionProof` preserves the invariant
(third conjunct, the proven heights satisfying
`EndHeight = StartHeight + StakingTime` by construction). -/
theorem C1_heights_invariant :
    (∀ st msg popOk pv incl st₁,
      CreateBTCDelegation st msg popOk pv incl = .ok st₁ →
      allHeightsOk st → allHeightsOk st₁) ∧
    (∀ st msg popOk pv incl st₁ d, msg.hasInclusionProof = false →
      CreateBTCDelegation st msg popOk pv incl = .ok st₁ →
      lookupA st₁.delegations msg.stakingTxHash = some d →
      d.startHeight = 0 ∧ d.endHeight = 0) ∧
    (∀ st hash incl tip w st₁,
      AddBTCDelegationInclusionProof st hash incl tip w = .ok st₁ →
      allHeightsOk st → allHeightsOk st₁) := by
  refine ⟨?_, ?_, ?_⟩
  · intro st msg popOk pv incl st₁ hok hinv
    obtain ⟨idx, sH, eH, -, hst, hcases⟩ :=
      create_ok_inv st msg popOk pv incl st₁ hok
    subst hst
    intro h d hd
    simp only at hd
    rcases lookupA_setA_cases _ _ _ _ _ hd with ⟨-, rfl⟩ | hold
    · rcases hcases with ⟨-, -, rfl⟩ | ⟨-, rfl, rfl⟩
      · intro _
        rfl
      · intro hne
        exact absurd rfl hne
    · exact hinv h d hold
  · intro st msg popOk pv incl st₁ d hnoproof hok hd
    obtain ⟨idx, sH, eH, -, hst, hcases⟩ :=
      create_ok_inv st msg popOk pv incl st₁ hok
    subst hst
    simp only at hd
    rw [lookupA_setA_self] at hd
    obtain rfl : newBTCDelOf msg idx sH eH (st.paramsList.length - 1) = d :=
      Option.some_inj.mp hd
    rcases hcases with ⟨hpi, -, -⟩ | ⟨-, rfl, rfl⟩
    · rw [hnoproof] at hpi
      cases hpi
    · exact ⟨rfl, rfl⟩
  · intro st hash incl tip w st₁ hok hinv
    obtain ⟨d, p, h, hd, -, -, -, -, -, hst⟩ :=
      addInclusionProof_ok_inv st hash incl tip w st₁ hok
    subst hst
    intro h' d' hd'
    simp only at hd'
    rcases lookupA_setA_cases _ _ _ _ _ hd' with ⟨-, rfl⟩ | hold
    · intro _
      rfl
    · exact hinv h' d' hold

/-- C1 witness: the invariant is preserved across a concrete successful
`AddBTCDelegationInclusionProof` on the fixture state. -/
theorem C1_heights_invariant_witness : allHeightsOk c2After := by
  refine C1_heights_invariant.2.2 st0 1 (some 100) 105 3 c2After rfl ?_
  intro h d hd
  simp only [st0, lookupA] at hd
  split at hd
  · cases hd
    decide
  · cases hd

/-! ## C2: events appended by AddBTCDelegationInclusionProof -/

/-- C2 counterexample: on the fixture state the inclusion proof verifies at
height `100`, but the `ACTIVE` power-distribution event is appended at the
current BTC tip height `105`, not at the verified inclusion height; the
claim that the `ACTIVE` event is appended at the verified height is
therefore false. -/
theorem C2_active_event_at_tip_counterexample :
    AddBTCDelegationInclusionProof st0 1 (some 100) 105 3 = .ok c2After ∧
    c2After.powerDistEvents =
      [(105, .btcDelStateUpdate 1 .ACTIVE),
       (147, .btcDelStateUpdate 1 .UNBONDED)] ∧
    (105 : Nat) ≠ 100 := by
  refine ⟨rfl, by decide, by decide⟩

/-- C2 (amended): for every successful `AddBTCDelegationInclusionProof`,
the handler appends to the power-distribution event log an `ACTIVE` event at
the current BTC tip height (not at the verified inclusion height), followed
by an `UNBONDED` event at `EndHeight - w`, where `EndHeight` is the verified
inclusion height plus the staking time. -/
theorem C2_power_dist_events (st : ChainState) (hash : Nat)
    (incl : Option Nat) (tip w : Nat) (st₁ : ChainState)
    (hok : AddBTCDelegationInclusionProof st hash incl tip w = .ok st₁) :
    ∃ d h, lookupA st.delegations hash = some d ∧ incl = some h ∧
      (∃ d', lookupA st₁.delegations hash = some d' ∧
        d'.startHeight = h ∧ d'.endHeight = h + d.stakingTime) ∧
      st₁.powerDistEvents = st.powerDistEvents ++
        [(tip, .btcDelStateUpdate hash .ACTIVE),
         (h + d.stakingTime - w, .btcDelStateUpdate hash .UNBONDED)] := by
  obtain ⟨d, p, h, hd, -, -, -, -, hincl, hst⟩ :=
    addInclusionProof_ok_inv st hash incl tip w st₁ hok
  subst hst
  exact ⟨d, h, hd, hincl, ⟨_, lookupA_setA_self _ _ _, rfl, rfl⟩, rfl⟩

/-- C2 witness: the amended statement instantiated on the fixture run. -/
theorem C2_power_dist_events_witness :
    ∃ d h, lookupA st0.delegations 1 = some d ∧
      (some 100 : Option Nat) = some h ∧
      (∃ d', lookupA c2After.delegations 1 = some d' ∧
        d'.startHeight = h ∧ d'.endHeight = h + d.stakingTime) ∧
      c2After.powerDistEvents = st0.powerDistEvents ++
        [(105, .btcDelStateUpdate 1 .ACTIVE),
         (100 + d.stakingTime - 3, .btcDelStateUpdate 1 .UNBONDED)] := by
  obtain ⟨d, h, h1, h2, h3, h4⟩ :=
    C2_power_dist_events st0 1 (some 100) 105 3 c2After rfl
  obtain rfl : (100 : Nat) = h := Option.some_inj.mp h2
  exact ⟨d, 100, h1, rfl, h3, h4⟩

/-! ## C4: duplicate staking transactions in CreateBTCDelegation -/

/-- A parsed creation request whose staking-transaction hash `1` collides
with the delegation already stored in `st0`. -/
def msgDup : ParsedCreateDelegation := {
  stakerAddr := "bbn1other",
  stakerBtcPk := 8,
  pop := 2,
  fpKeys := [20],
  stakingTime := 60,
  stakingValue := 500,
  stakingTxHash := 1,
  stakingTx := [9],
  stakingSlashingTx := [3],
  stakerStakingSlashingSig := 1,
  unbondingTime := 11,
  unbondingTx := [4],
  unbondingSlashingTx := [5],
  stakerUnbondingSlashingSig := 2,
  hasInclusionProof := false }

/-- C4 counterexample: a request whose staking-transaction hash duplicates
a stored delegation but whose proof of possession fails verification is
rejected with the proof-of-possession error, not the duplicate error — the
proof-of-possession field of the request therefore matters, contradicting
"rejected with a duplicate error, regardless of any other field". -/
theorem C4_pop_error_precedes_duplicate_counterexample :
    lookupA st0.delegations msgDup.stakingTxHash = some del0 ∧
    CreateBTCDelegation st0 msgDup false none none =
      .err .invalidProofOfPossession ∧
    CreateBTCDelegation st0 msgDup false none none ≠
      .err .reusedStakingTx := by
  refine ⟨rfl, rfl, by decide⟩

/-- C4 (amended): every `CreateBTCDelegation` request that parses and whose
proof of possession verifies, and whose staking-transaction hash equals that
of an already-stored delegation, is rejected with the duplicate
(`ErrReusedStakingTx`) error, regardless of every other field of the request
and of the outcomes of parameter validation and inclusion-proof
verification; the host runtime discards all writes on error, so no state is
mutated.  (A duplicate request that fails message parsing or proof of
possession is rejected with that earlier check's error instead.) -/
theorem C4_duplicate_staking_tx_rejected (st : ChainState)
    (msg : ParsedCreateDelegation) (pv incl : Option Nat) (d : BTCDelegation)
    (hdup : lookupA st.delegations msg.stakingTxHash = some d) :
    CreateBTCDelegation st msg true pv incl = .err .reusedStakingTx ∧
    HandlerError.reusedStakingTx.kind = .duplicateErr := by
  constructor
  · unfold CreateBTCDelegation
    simp [hdup]
  · rfl

/-- C4 witness: the amended statement at the fixture duplicate request. -/
theorem C4_duplicate_staking_tx_rejected_witness :
    CreateBTCDelegation st0 msgDup true none none = .err .reusedStakingTx ∧
    HandlerError.reusedStakingTx.kind = .duplicateErr :=
  C4_duplicate_staking_tx_rejected st0 msgDup none none del0 rfl

/-! ## C6: covenant-key membership check in AddCovenantSigs -/

/-- C6: `AddCovenantSigs` is legal only for a covenant member whose public
key is in the parameter set the delegation is bound to (its
parameter-version snapshot, fetched by `getBTCDelWithParams`): a request
whose covenant key is not in that set is rejected with
`ErrInvalidCovenantPK` before any signature verification (empty crypto
trace), and a successful request's key is always in that set. -/
theorem C6_covenant_pk_membership (st : ChainState) (req : MsgAddCovenantSigs)
    (tip w : Nat) (a b c : Bool) (d : BTCDelegation) (p : Params)
    (hd : lookupA st.delegations req.stakingTxHash = some d)
    (hp : getParamsByVersion st d.paramsVersion = some p) :
    (p.HasCovenantPK req.pk = false →
      AddCovenantSigs st req tip w a b c = (.err .invalidCovenantPK, [])) ∧
    (∀ st₁ tr, AddCovenantSigs st req tip w a b c = (.ok st₁, tr) →
      p.HasCovenantPK req.pk = true) := by
  have hgd : getBTCDelWithParams st req.stakingTxHash = .ok (d, p) :=
    (getBTCDelWithParams_ok_iff st req.stakingTxHash d p).mpr ⟨hd, hp⟩
  constructor
  · intro hpk
    unfold AddCovenantSigs
    rw [hgd]
    simp [hpk]
  · intro st₁ tr hok
    by_cases hpk : p.HasCovenantPK req.pk = true
    · exact hpk
    · unfold AddCovenantSigs at hok
      rw [hgd] at hok
      simp only [Bool.not_eq_true] at hpk
      simp [hpk] at hok

/-- A covenant-signature request from member `12`, a key outside the
parameter set `params0`. -/
def reqCov12 : MsgAddCovenantSigs := {
  stakingTxHash := 1,
  pk := 12,
  slashingTxSigs := [70],
  unbondingTxSig := 71,
  slashingUnbondingTxSigs := [72] }

/-- C6 witness: the unknown covenant key `12` is rejected with
`ErrInvalidCovenantPK` and no cryptographic verification runs. -/
theorem C6_covenant_pk_membership_witness :
    AddCovenantSigs st0 reqCov12 200 3 true true true =
      (.err .invalidCovenantPK, []) :=
  (C6_covenant_pk_membership st0 reqCov12 200 3 true true true del0 params0
    rfl rfl).1 (by decide)

/-! ## C5: duplicate covenant-signature submission -/

/-- C5: a covenant member that has already fully signed both slashing paths
of a delegation is rejected with `ErrDuplicatedCovenantSig` (a duplicate
error) with an empty crypto trace — no cryptographic verification is
re-run — and, the host runtime discarding all writes on error, the
delegation record is unchanged. -/
theorem C5_duplicate_covenant_member (st : ChainState)
    (req : MsgAddCovenantSigs) (tip w : Nat) (a b c : Bool)
    (d : BTCDelegation) (p : Params)
    (hd : lookupA st.delegations req.stakingTxHash = some d)
    (hp : getParamsByVersion st d.paramsVersion = some p)
    (hpk : p.HasCovenantPK req.pk = true)
    (h1 : d.IsSignedByCovMember req.pk = true)
    (h2 : d.btcUndelegation.IsSignedByCovMember req.pk = true) :
    AddCovenantSigs st req tip w a b c = (.err .duplicatedCovenantSig, []) ∧
    HandlerError.duplicatedCovenantSig.kind = .duplicateErr := by
  have hgd : getBTCDelWithParams st req.stakingTxHash = .ok (d, p) :=
    (getBTCDelWithParams_ok_iff st req.stakingTxHash d p).mpr ⟨hd, hp⟩
  constructor
  · unfold AddCovenantSigs
    rw [hgd]
    simp [hpk, h1, h2]
  · rfl

/-- A covenant-signature request re-submitted by member `10`, which has
already fully signed `del0`. -/
def reqCov10 : MsgAddCovenantSigs := {
  stakingTxHash := 1,
  pk := 10,
  slashingTxSigs := [70],
  unbondingTxSig := 71,
  slashingUnbondingTxSigs := [72] }

/-- C5 witness: the fully-signed member `10` is rejected with the duplicate
error and no cryptographic verification runs. -/
theorem C5_duplicate_covenant_member_witness :
    AddCovenantSigs st0 reqCov10 200 3 true true true =
      (.err .duplicatedCovenantSig, []) ∧
    HandlerError.duplicatedCovenantSig.kind = .duplicateErr :=
  C5_duplicate_covenant_member st0 reqCov10 200 3 true true true del0 params0
    rfl rfl (by decide) (by decide) (by decide)

/-! ## C3: adaptor-signature count checks in AddCovenantSigs -/

/-- A covenant-signature request from the fresh member `11` whose
staking-slashing signature count matches the single finality provider but
whose unbonding-slashing signature count (two) does not. -/
def reqCov11 : MsgAddCovenantSigs := {
  stakingTxHash := 1,
  pk := 11,
  slashingTxSigs := [70],
  unbondingTxSig := 71,
  slashingUnbondingTxSigs := [72, 73] }

/-- A covenant-signature request from member `11` with an empty
staking-slashing signature list (count `0` against one provider). -/
def reqCov11a : MsgAddCovenantSigs := {
  stakingTxHash := 1,
  pk := 11,
  slashingTxSigs := [],
  unbondingTxSig := 71,
  slashingUnbondingTxSigs := [72] }

/-- C3 counterexample: a request whose unbonding-slashing signature count
mismatches the provider list is rejected with the count-mismatch error only
after the staking-slashing adaptor signatures have been cryptographically
verified (non-empty crypto trace), contradicting "rejected … before any
cryptographic verification (adaptor-signature or Schnorr) is executed". -/
theorem C3_unbonding_count_after_crypto_counterexample :
    AddCovenantSigs st0 reqCov11 200 3 true true true =
      (.err (.covenantSigCountMismatch 2 1), [.adaptorOverStakingSlashing]) ∧
    ([CryptoOp.adaptorOverStakingSlashing] : List CryptoOp) ≠ [] := by
  refine ⟨rfl, by decide⟩

/-- C3 (amended): a staking-slashing signature-count mismatch is rejected
with the count-mismatch error before any cryptographic verification runs
(empty trace); an unbonding-slashing signature-count mismatch is rejected
with the count-mismatch error before any unbonding-path verification (the
covenant Schnorr signature over the unbonding transaction and the
unbonding-slashing adaptor signatures), but only after the staking-slashing
adaptor signatures have been verified. -/
theorem C3_count_mismatch_rejections (st : ChainState)
    (req : MsgAddCovenantSigs) (tip w : Nat) (a b c : Bool)
    (d : BTCDelegation) (p : Params)
    (hd : lookupA st.delegations req.stakingTxHash = some d)
    (hp : getParamsByVersion st d.paramsVersion = some p)
    (hpk : p.HasCovenantPK req.pk = true)
    (hdup : (d.IsSignedByCovMember req.pk &&
      d.btcUndelegation.IsSignedByCovMember req.pk) = false)
    (hstat : (d.GetStatus tip w p.covenantQuorum == .UNBONDED) = false) :
    (req.slashingTxSigs.length ≠ d.fpBtcPkList.length →
      AddCovenantSigs st req tip w a b c =
        (.err (.covenantSigCountMismatch req.slashingTxSigs.length
          d.fpBtcPkList.length), [])) ∧
    (req.slashingTxSigs.length = d.fpBtcPkList.length → a = true →
      req.slashingUnbondingTxSigs.length ≠ d.fpBtcPkList.length →
      AddCovenantSigs st req tip w a b c =
        (.err (.covenantSigCountMismatch req.slashingUnbondingTxSigs.length
          d.fpBtcPkList.length), [.adaptorOverStakingSlashing])) := by
  have hgd : getBTCDelWithParams st req.stakingTxHash = .ok (d, p) :=
    (getBTCDelWithParams_ok_iff st req.stakingTxHash d p).mpr ⟨hd, hp⟩
  constructor
  · intro hc1
    unfold AddCovenantSigs
    rw [hgd]
    simp [hpk, hdup, hstat, hc1]
  · intro hc1 ha hc2
    subst ha
    unfold AddCovenantSigs
    rw [hgd]
    simp [hpk, hdup, hstat, hc1, hc2]

/-- C3 witness: the amended statement at the fixture requests — an empty
staking-slashing signature list is rejected with no verification run at
all. -/
theorem C3_count_mismatch_rejections_witness :
    AddCovenantSigs st0 reqCov11a 200 3 true true true =
      (.err (.covenantSigCountMismatch 0 1), []) :=
  (C3_count_mismatch_rejections st0 reqCov11a 200 3 true true true del0
    params0 rfl rfl (by decide) (by decide) (by decide)).1 (by decide)

/-! ## C7: the status gate of BTCUndelegate -/

/-- C7: `BTCUndelegate` on an existing delegation is rejected with the
state-conflict error `ErrInvalidBTCUndelegateReq` both when the derived
status is `PENDING` and when it is `UNBONDED`; the staker's unbonding
signature is recorded only when the status is neither. -/
theorem C7_undelegate_status_gate (st : ChainState) (req : MsgBTCUndelegate)
    (tip w : Nat) (sigOk : Bool) (d : BTCDelegation) (p : Params)
    (hd : lookupA st.delegations req.stakingTxHash = some d)
    (hp : getParamsByVersion st d.paramsVersion = some p) :
    (d.GetStatus tip w p.covenantQuorum = .PENDING →
      BTCUndelegate st req tip w sigOk =
        .err (.invalidBTCUndelegateReq "cannot unbond an pending BTC delegation")) ∧
    (d.GetStatus tip w p.covenantQuorum = .UNBONDED →
      BTCUndelegate st req tip w sigOk =
        .err (.invalidBTCUndelegateReq "cannot unbond an unbonded BTC delegation")) ∧
    (∀ m, (HandlerError.invalidBTCUndelegateReq m).kind = .stateConflictErr) ∧
    (∀ st₁, BTCUndelegate st req tip w sigOk = .ok st₁ →
      d.GetStatus tip w p.covenantQuorum ≠ .PENDING ∧
      d.GetStatus tip w p.covenantQuorum ≠ .UNBONDED ∧
      ∃ d', lookupA st₁.delegations req.stakingTxHash = some d' ∧
        d'.btcUndelegation.delegatorUnbondingSig = some req.unbondingTxSig) := by
  have hgd : getBTCDelWithParams st req.stakingTxHash = .ok (d, p) :=
    (getBTCDelWithParams_ok_iff st req.stakingTxHash d p).mpr ⟨hd, hp⟩
  refine ⟨?_, ?_, fun m => rfl, ?_⟩
  · intro hstt
    unfold BTCUndelegate
    rw [hgd]
    simp [hstt]
  · intro hstt
    unfold BTCUndelegate
    rw [hgd]
    simp [hstt]
  · intro st₁ hok
    unfold BTCUndelegate at hok
    rw [hgd] at hok
    by_cases h1 : (d.GetStatus tip w p.covenantQuorum == .PENDING) = true
    · simp [h1] at hok
    · by_cases h2 : (d.GetStatus tip w p.covenantQuorum == .UNBONDED) = true
      · simp [h1, h2] at hok
      · cases sigOk with
        | false => simp [h1, h2] at hok
        | true =>
          simp only [h1, h2, Bool.false_eq_true, if_false, Bool.not_true,
            Bool.not_false, if_true, Outcome.ok.injEq] at hok
          refine ⟨by simpa using h1, by simpa using h2, ?_⟩
          rw [← hok]
          exact ⟨_, lookupA_setA_self _ _ _, rfl⟩

/-- C7 witness: the gate instantiated on the still-pending fixture
delegation — the undelegation request is rejected with the pending-state
conflict error. -/
theorem C7_undelegate_status_gate_witness :
    BTCUndelegate st0 ⟨1, 42⟩ 200 3 true =
      .err (.invalidBTCUndelegateReq "cannot unbond an pending BTC delegation") :=
  (C7_undelegate_status_gate st0 ⟨1, 42⟩ 200 3 true del0 params0
    rfl rfl).1 (by decide)

/-! ## C8: selective slashing with a key outside the provider list -/

/-- C8: every `SelectiveSlashingEvidence` request whose recovered
finality-provider key is not in the delegation's provider list is rejected
with a not-found error; the host runtime discarding all writes on error,
the finality-provider registry is unchanged and no provider is marked
slashed. -/
theorem C8_slash_unknown_key_rejected (st : ChainState)
    (req : MsgSelectiveSlashingEvidence) (fpPK tip w : Nat)
    (d : BTCDelegation) (p : Params)
    (hd : lookupA st.delegations req.stakingTxHash = some d)
    (hp : getParamsByVersion st d.paramsVersion = some p)
    (hmem : fpPK ∉ d.fpBtcPkList) :
    ∃ e, SelectiveSlashingEvidence st req fpPK tip w = .err e ∧
      e.kind = .notFoundErr := by
  have hgd : getBTCDelWithParams st req.stakingTxHash = .ok (d, p) :=
    (getBTCDelWithParams_ok_iff st req.stakingTxHash d p).mpr ⟨hd, hp⟩
  by_cases hgate : (!(d.GetStatus tip w p.covenantQuorum == .ACTIVE) &&
      !d.IsUnbondedEarly) = true
  · refine ⟨.btcDelegationNotFound
      "a BTC delegation that is not active or unbonding early cannot be slashed",
      ?_, rfl⟩
    unfold SelectiveSlashingEvidence
    rw [hgd]
    simp [hgate]
  · have hidx : d.GetFpIdx fpPK = -1 :=
      (fpIdxIn_eq_neg_one_iff d.fpBtcPkList fpPK).mpr hmem
    refine ⟨.fpNotFound, ?_, rfl⟩
    unfold SelectiveSlashingEvidence
    rw [hgd]
    simp only [Bool.not_eq_true] at hgate
    simp [hgate, hidx]

/-- C8 witness: key `21` is not among the fixture delegation's providers;
the request is rejected with a not-found error. -/
theorem C8_slash_unknown_key_rejected_witness :
    ∃ e, SelectiveSlashingEvidence st0 ⟨1, 55⟩ 21 200 3 = .err e ∧
      e.kind = .notFoundErr :=
  C8_slash_unknown_key_rejected st0 ⟨1, 55⟩ 21 200 3 del0 params0
    rfl rfl (by decide)

/-! ## C10: registry-lookup failure inside SelectiveSlashingEvidence -/

/-- The fixture delegation after voluntary early unbonding (the staker's
unbonding signature is recorded). -/
def del1 : BTCDelegation := { del0 with
  btcUndelegation := { undel0 with delegatorUnbondingSig := some 42 } }

/-- A chain state holding the early-unbonded `del1` under hash `2` and an
empty finality-provider registry. -/
def st1 : ChainState := {
  delegations := [(2, del1)],
  finalityProviders := [],
  paramsList := [params0],
  powerDistEvents := [] }

/-- C10: once the status gate passes, if the recovered key is in the
delegation's provider list but the registry lookup for it fails, the
handler panics (an internal-consistency fault) rather than returning a
user error; a user-facing error is returned only when the key is absent
from the delegation's list or the provider is already slashed. -/
theorem C10_registry_lookup_fault (st : ChainState)
    (req : MsgSelectiveSlashingEvidence) (fpPK tip w : Nat)
    (d : BTCDelegation) (p : Params)
    (hd : lookupA st.delegations req.stakingTxHash = some d)
    (hp : getParamsByVersion st d.paramsVersion = some p)
    (hgate : ((d.GetStatus tip w p.covenantQuorum == .ACTIVE) ||
      d.IsUnbondedEarly) = true) :
    (fpPK ∈ d.fpBtcPkList → lookupA st.finalityProviders fpPK = none →
      SelectiveSlashingEvidence st req fpPK tip w =
        .fault "failing to find the finality provider with BTC delegations") ∧
    (∀ e, SelectiveSlashingEvidence st req fpPK tip w = .err e →
      fpPK ∉ d.fpBtcPkList ∨
      ∃ fp, lookupA st.finalityProviders fpPK = some fp ∧
        fp.IsSlashed = true) := by
  have hgd : getBTCDelWithParams st req.stakingTxHash = .ok (d, p) :=
    (getBTCDelWithParams_ok_iff st req.stakingTxHash d p).mpr ⟨hd, hp⟩
  have hcond : (!(d.GetStatus tip w p.covenantQuorum == .ACTIVE) &&
      !d.IsUnbondedEarly) = false := by
    rw [← Bool.not_or, hgate]
    rfl
  constructor
  · intro hmem hreg
    have hidx : d.GetFpIdx fpPK ≠ -1 := fun hc =>
      (fpIdxIn_eq_neg_one_iff d.fpBtcPkList fpPK).mp hc hmem
    unfold SelectiveSlashingEvidence
    rw [hgd]
    simp [hcond, hidx, hreg]
  · intro e he
    by_cases hmem : fpPK ∈ d.fpBtcPkList
    · right
      have hidx : d.GetFpIdx fpPK ≠ -1 := fun hc =>
        (fpIdxIn_eq_neg_one_iff d.fpBtcPkList fpPK).mp hc hmem
      unfold SelectiveSlashingEvidence at he
      rw [hgd] at he
      simp only [hcond, Bool.false_eq_true, if_false] at he
      rw [if_neg (by simpa using hidx)] at he
      cases hreg : lookupA st.finalityProviders fpPK with
      | none => rw [hreg] at he; cases he
      | some fp =>
        rw [hreg] at he
        by_cases hs : fp.IsSlashed = true
        · exact ⟨fp, rfl, hs⟩
        · simp [hs] at he
    · exact Or.inl hmem

/-- C10 witness: on the early-unbonded fixture delegation, key `20` is in
the provider list but absent from the (empty) registry, and the handler
panics. -/
theorem C10_registry_lookup_fault_witness :
    SelectiveSlashingEvidence st1 ⟨2, 9⟩ 20 200 3 =
      .fault "failing to find the finality provider with BTC delegations" :=
  (C10_registry_lookup_fault st1 ⟨2, 9⟩ 20 200 3 del1 params0
    rfl rfl (by decide)).1 (by decide) rfl

/-! ## C9: EditFinalityProvider frame and guards -/

/-- C9: a successful `EditFinalityProvider` requires the signer address to
equal the registered provider address and the new commission to lie in
`[minCommissionRate, 1]`, and rewrites only the provider's description and
commission: BTC key, chain address, slashed flag and slashing height are
unchanged, as are all other providers, the delegation store, the parameter
history and the event log. -/
theorem C9_edit_frame (st : ChainState) (req : MsgEditFinalityProvider)
    (minRate : Rat) (st₁ : ChainState)
    (hok : EditFinalityProvider st req minRate = .ok st₁) :
    ∃ fp, lookupA st.finalityProviders req.btcPk = some fp ∧
      req.addr = fp.addr ∧
      minRate ≤ req.commission ∧ req.commission ≤ 1 ∧
      st₁.delegations = st.delegations ∧
      st₁.paramsList = st.paramsList ∧
      st₁.powerDistEvents = st.powerDistEvents ∧
      lookupA st₁.finalityProviders req.btcPk = some { fp with
        description := req.description, commission := req.commission } ∧
      (∀ k, k ≠ req.btcPk →
        lookupA st₁.finalityProviders k = lookupA st.finalityProviders k) := by
  unfold EditFinalityProvider at hok
  by_cases hlt : req.commission < minRate
  · simp [hlt] at hok
  · by_cases hgt : (1 : Rat) < req.commission
    · simp [hlt, hgt] at hok
    · cases hfp : lookupA st.finalityProviders req.btcPk with
      | none => simp [hlt, hgt, hfp] at hok
      | some fp =>
        by_cases haddr : req.addr = fp.addr
        · simp only [hlt, hgt, hfp, haddr, if_neg (lt_irrefl _), if_false,
            ne_eq, not_true_eq_false, ite_false, ite_true,
            Outcome.ok.injEq] at hok
          rw [← hok]
          refine ⟨fp, rfl, haddr, not_lt.mp hlt, not_lt.mp hgt,
            rfl, rfl, rfl, lookupA_setA_self _ _ _, ?_⟩
          intro k hk
          exact lookupA_setA_ne _ _ _ _ hk
        · simp [hlt, hgt, hfp, haddr] at hok

/-- An edit request by the registered address of `fp20`, setting a new
description and a commission of `3/4`. -/
def reqEdit : MsgEditFinalityProvider := {
  addr := "bbn1fptwenty",
  btcPk := 20,
  description := "an updated description",
  commission := 1 }

/-- The state after the successful fixture edit. -/
def editAfter : ChainState :=
  match EditFinalityProvider st0 reqEdit 0 with
  | .ok s => s
  | _ => st0

/-- C9 witness: the frame theorem instantiated on the successful fixture
edit. -/
theorem C9_edit_frame_witness :
    ∃ fp, lookupA st0.finalityProviders reqEdit.btcPk = some fp ∧
      reqEdit.addr = fp.addr ∧
      (0 : Rat) ≤ reqEdit.commission ∧ reqEdit.commission ≤ 1 ∧
      editAfter.delegations = st0.delegations ∧
      editAfter.paramsList = st0.paramsList ∧
      editAfter.powerDistEvents = st0.powerDistEvents ∧
      lookupA editAfter.finalityProviders reqEdit.btcPk = some { fp with
        description := reqEdit.description, commission := reqEdit.commission } ∧
      (∀ k, k ≠ reqEdit.btcPk →
        lookupA editAfter.finalityProviders k =
          lookupA st0.finalityProviders k) :=
  C9_edit_frame st0 reqEdit 0 editAfter (by decide)

end BtcStaking
